import Mathlib

/-!
Verification of the minerva-ericsson telemetry core: a shallow embedding of
the sensor simulator, the machine-rotation scheduler, the lifecycle
coordinator, the threshold completion detector and the lot metadata
repository, together with theorems settling the specification claims.

Floating-point values from the Go source are embedded as rationals and
timestamps as integers.  The pseudo-random source is embedded as an explicit
stream of rationals (for rand.Float64) and naturals (for rand.Intn), so all
definitions are executable and deterministic.  String helpers from the Go
standard library (strings.EqualFold, strings.TrimSpace, sort.Strings) are
modelled over ASCII character codes.
-/

namespace Minerva

/-! ## String helpers (models of the Go standard library) -/

/-- ASCII case folding of one character, as a character code. -/
def foldChar (c : Char) : Nat :=
  if 65 ≤ c.toNat ∧ c.toNat ≤ 90 then c.toNat + 32 else c.toNat

/-- ASCII model of Go strings.EqualFold. -/
def eqFold (a b : String) : Bool :=
  a.data.map foldChar == b.data.map foldChar

/-- ASCII model of Go unicode.IsSpace. -/
def isSpaceChar (c : Char) : Bool :=
  c == ' ' || c == '\t' || c == '\n' || c == '\x0b' || c == '\x0c' || c == '\r'

/-- ASCII model of Go strings.TrimSpace. -/
def trimSpace (s : String) : String :=
  String.mk ((((s.data.dropWhile isSpaceChar).reverse.dropWhile isSpaceChar).reverse))

/-- Byte-wise lexicographic order on strings, as used by Go sort.Strings. -/
def strLe (a b : String) : Bool :=
  go a.data b.data
where
  go : List Char → List Char → Bool
    | [], _ => true
    | _ :: _, [] => false
    | c :: cs, d :: ds =>
      if c.toNat < d.toNat then true
      else if d.toNat < c.toNat then false
      else go cs ds

/-! ## Time-series readings (influxdb.SensorReading) -/

/-- Embeds influxdb.SensorReading: one row returned by recentSensorReadings. -/
structure SensorReading where
  time : Int
  machineName : String
  sensorName : String
  status : String
  value : ℚ
  deriving Repr, DecidableEq, Inhabited

/-! ## Completion detector (processing.CompletionService) -/

/-- Embeds processing.isDownSample: status equals "down" (case-insensitive)
and value is at most the threshold. -/
def isDownSample (sample : SensorReading) (threshold : ℚ) : Bool :=
  if !eqFold sample.status "down" then false
  else decide (sample.value ≤ threshold)

/-- Embeds the per-reading update of the sensorWindows map in
CompletionService.evaluateLot: a reading is appended to its sensor's window
unless that window already holds samplesRequired readings. -/
def addReading (k : Nat) (r : SensorReading) :
    List (String × List SensorReading) → List (String × List SensorReading)
  | [] => if k = 0 then [] else [(r.sensorName, [r])]
  | (n, w) :: rest =>
    if n = r.sensorName then
      if k ≤ w.length then (n, w) :: rest else (n, w ++ [r]) :: rest
    else
      (n, w) :: addReading k r rest

/-- Embeds the grouping loop of evaluateLot over the newest-first readings. -/
def sensorWindows (k : Nat) (readings : List SensorReading) :
    List (String × List SensorReading) :=
  readings.foldl (fun acc r => addReading k r acc) []

/-- Embeds processing.averageValue. -/
def averageValue (samples : List SensorReading) : ℚ :=
  if samples.length = 0 then 0
  else (samples.foldl (fun s r => s + r.value) 0) / samples.length

/-- Embeds metadata.SensorSnapshot. -/
structure SensorSnapshot where
  sensorName : String
  latestStatus : String
  latestValue : ℚ
  averageDown : ℚ
  observedCount : Nat
  deriving Repr, DecidableEq, Inhabited

/-- Embeds metadata.LotSummary (the fields written by the core). -/
structure LotSummary where
  completedAt : Int
  machineName : String
  sensors : List SensorSnapshot := []
  goodProduct : Int := 0
  defectProduct : Int := 0
  conclusion : String := ""
  deriving Repr, DecidableEq, Inhabited

/-- Embeds sort.Strings (insertion of one name into a sorted list). -/
def insertName (x : String) : List String → List String
  | [] => [x]
  | y :: ys => if strLe x y then x :: y :: ys else y :: insertName x ys

/-- Embeds sort.Strings on the sensor names of evaluateLot. -/
def sortNames (l : List String) : List String :=
  l.foldr insertName []

/-- Embeds the per-sensor loop of evaluateLot: builds the summary snapshots in
sorted name order and conjoins the window-length and down-predicate checks
into the allDown flag. -/
def evalLoop (k : Nat) (threshold : ℚ)
    (windows : List (String × List SensorReading)) :
    List String → List SensorSnapshot × Bool
  | [] => ([], true)
  | n :: rest =>
    let samples := (windows.lookup n).getD []
    let lenOk := decide (k ≤ samples.length)
    let latest := samples.headD default
    let ok := lenOk && isDownSample latest threshold
        && (samples.tail).all (fun r => isDownSample r threshold)
    let next := evalLoop k threshold windows rest
    ({ sensorName := n
       latestStatus := latest.status
       latestValue := latest.value
       averageDown := averageValue samples
       observedCount := samples.length } :: next.1,
     ok && next.2)

/-- Embeds CompletionService.evaluateLot, specialised to the pure evaluation
of the queried readings: returns the summary (when eligible) and the done
flag. -/
def evaluateLot (k : Nat) (threshold : ℚ) (machineName : String)
    (readings : List SensorReading) : Option LotSummary × Bool :=
  match readings with
  | [] => (none, false)
  | first :: _ =>
    let windows := sensorWindows k readings
    if windows.isEmpty then (none, false)
    else
      let names := sortNames (windows.map Prod.fst)
      let r := evalLoop k threshold windows names
      if r.2 then
        (some { completedAt := first.time
                machineName := machineName
                sensors := r.1 }, true)
      else (none, false)

/-! ## Lot metadata repository (metadata.Repository over the lots table) -/

/-- Embeds metadata.LotStatus. -/
inductive LotStatus where
  | processing
  | completed
  deriving Repr, DecidableEq, Inhabited

/-- Embeds one row of the lots table (metadata.Lot as persisted). -/
structure LotRow where
  id : Int
  lotNumber : String
  machineName : String
  status : LotStatus
  startedAt : Int
  completedAt : Option Int
  updatedAt : Int
  summaryJson : Option LotSummary
  activeMachineID : Option String
  averages : Option String
  operationHour : Option String
  goodProduct : Option Int
  defectProduct : Option Int
  conclusion : Option String
  isConclusion : Bool
  deriving Repr, DecidableEq, Inhabited

/-- Errors surfaced by the repository operations. -/
inductive DbError where
  | noRows
  | lotExists
  | lotNumberRequired
  | lotNotFound
  deriving Repr, DecidableEq

/-- Embeds processing.errorsIsNoRows (errors.Is(err, sql.ErrNoRows)):
recognises the benign lost-race signal. -/
def errorsIsNoRows : DbError → Bool
  | .noRows => true
  | _ => false

/-- Embeds metadata.normalizeMachineName. -/
def normalizeMachineName (lotNumber machineName : String) : String :=
  let trimmed := trimSpace machineName
  if trimmed ≠ "" then trimmed
  else
    let fallback := trimSpace lotNumber
    if fallback ≠ "" then fallback else "auto-machine"

/-- Embeds metadata.CreateLotInput. -/
structure CreateLotInput where
  lotNumber : String
  machineName : String
  deriving Repr, DecidableEq

/-- Embeds metadata.ProductInput. -/
structure ProductInput where
  lotNumber : String
  machineName : String
  activeMachineID : Option String := none
  averages : Option String := none
  operationHour : Option String := none
  goodProduct : Option Int := none
  defectProduct : Option Int := none
  conclusion : Option String := none
  isConclusion : Option Bool := none
  deriving Repr, DecidableEq

/-- Embeds metadata.toNullString. -/
def toNullString (value : Option String) : Option String :=
  match value with
  | none => none
  | some s =>
    let trimmed := trimSpace s
    if trimmed = "" then none else some trimmed

/-- Embeds metadata.toNullRawMessage. -/
def toNullRawMessage (value : Option String) : Option String :=
  match value with
  | none => none
  | some s => if s = "" then none else some s

/-- Row inserted by Repository.CreateLot: status processing, completed_at
NULL, remaining columns at their column defaults; startedAt and updatedAt
stand for the database NOW() default. -/
def newLotRow (id : Int) (lotNumber machineName : String) (now : Int) : LotRow :=
  { id := id
    lotNumber := lotNumber
    machineName := machineName
    status := .processing
    startedAt := now
    completedAt := none
    updatedAt := now
    summaryJson := none
    activeMachineID := none
    averages := none
    operationHour := none
    goodProduct := none
    defectProduct := none
    conclusion := none
    isConclusion := false }

/-- Fresh AUTO_INCREMENT identifier for an insert. -/
def freshId (db : List LotRow) : Int :=
  1 + db.foldl (fun m l => max m l.id) 0

/-- Embeds Repository.CreateLot: validates the lot number, rejects
duplicates (unique key on lot_number) and inserts a processing row. -/
def createLot (now : Int) (db : List LotRow) (input : CreateLotInput) :
    List LotRow × Except DbError Unit :=
  let lotNumber := trimSpace input.lotNumber
  if lotNumber = "" then (db, .error .lotNumberRequired)
  else
    let machineName := normalizeMachineName lotNumber input.machineName
    if db.any (fun l => l.lotNumber == lotNumber) then (db, .error .lotExists)
    else (db ++ [newLotRow (freshId db) lotNumber machineName now], .ok ())

/-- Row update performed by the UPDATE statement of
Repository.MarkLotCompleted on a matched row. -/
def markRow (summary : LotSummary) (l : LotRow) : LotRow :=
  { l with status := .completed
           completedAt := some summary.completedAt
           summaryJson := some summary }

/-- Match predicate of MarkLotCompleted's conditional UPDATE:
WHERE id = ? AND status = 'processing'. -/
def markHits (lotID : Int) (l : LotRow) : Bool :=
  l.id == lotID && l.status == LotStatus.processing

/-- Embeds Repository.MarkLotCompleted: the single conditional write; zero
affected rows is reported as sql.ErrNoRows. -/
def markLotCompleted (db : List LotRow) (lotID : Int) (summary : LotSummary) :
    List LotRow × Except DbError Unit :=
  let db' := db.map (fun l => if markHits lotID l then markRow summary l else l)
  let affected := (db.filter (markHits lotID)).length
  (db', if affected = 0 then .error .noRows else .ok ())

/-- Row update performed by the UPDATE statement of
Repository.UpsertLotProduct (is_conclusion uses COALESCE with the old
value; status and completed_at are not in the SET list). -/
def productRowUpdate (now : Int) (input : ProductInput) (l : LotRow) : LotRow :=
  { l with activeMachineID := toNullString input.activeMachineID
           averages := toNullRawMessage input.averages
           operationHour := toNullString input.operationHour
           goodProduct := input.goodProduct
           defectProduct := input.defectProduct
           conclusion := toNullString input.conclusion
           isConclusion := input.isConclusion.getD l.isConclusion
           updatedAt := now }

/-- Embeds Repository.UpsertLotProduct restricted to its effect on the lots
table: find the lot by number, create it when missing, then apply the
product-column UPDATE to the row with the located id. -/
def upsertLotProduct (now : Int) (db : List LotRow) (input : ProductInput) :
    List LotRow × Except DbError Unit :=
  let lotNumber := trimSpace input.lotNumber
  if lotNumber = "" then (db, .error .lotNumberRequired)
  else
    match db.find? (fun l => l.lotNumber == lotNumber) with
    | some lot =>
      (db.map (fun l => if l.id == lot.id then productRowUpdate now input l else l), .ok ())
    | none =>
      let machine := normalizeMachineName lotNumber input.machineName
      let created := createLot now db { lotNumber := lotNumber, machineName := machine }
      match created.2 with
      | .error e => (created.1, .error e)
      | .ok _ =>
        match created.1.find? (fun l => l.lotNumber == lotNumber) with
        | some lot =>
          (created.1.map (fun l => if l.id == lot.id then productRowUpdate now input l else l), .ok ())
        | none => (created.1, .error .lotNotFound)

/-- Row update performed by the UPDATE statement of
Repository.UpdateLotComputedFields: COALESCE keeps the old column when the
parameter is NULL; status and completed_at are untouched. -/
def computedRowUpdate (now : Int) (opHour averagesJSON : Option String)
    (l : LotRow) : LotRow :=
  { l with averages := (match averagesJSON with | none => l.averages | some a => some a)
           operationHour := (match opHour with | none => l.operationHour | some o => some o)
           updatedAt := now }

/-- Embeds Repository.UpdateLotComputedFields. -/
def updateLotComputedFields (now : Int) (db : List LotRow) (id : Int)
    (opHour averagesJSON : Option String) : List LotRow × Except DbError Unit :=
  (db.map (fun l => if l.id == id then computedRowUpdate now opHour averagesJSON l else l),
   .ok ())

/-- Embeds Repository.DeleteLotByNumber. -/
def deleteLotByNumber (db : List LotRow) (lotNumber : String) :
    List LotRow × Except DbError Unit :=
  let trimmed := trimSpace lotNumber
  if trimmed = "" then (db, .error .lotNumberRequired)
  else
    let remaining := db.filter (fun l => !(l.lotNumber == trimmed))
    if db.length - remaining.length = 0 then (remaining, .error .lotNotFound)
    else (remaining, .ok ())

/-- Embeds Repository.HasActiveLots: does any row have status processing. -/
def hasActiveLots (db : List LotRow) : Bool :=
  db.any (fun l => l.status == LotStatus.processing)

/-- The repository operations that write to the lots table. -/
inductive RepoOp where
  | createLot (input : CreateLotInput)
  | markLotCompleted (lotID : Int) (summary : LotSummary)
  | upsertLotProduct (input : ProductInput)
  | updateLotComputedFields (id : Int) (opHour averagesJSON : Option String)
  | deleteLotByNumber (lotNumber : String)

/-- The lots-table state after running one repository operation. -/
def applyRepoOp (now : Int) (db : List LotRow) : RepoOp → List LotRow
  | .createLot input => (createLot now db input).1
  | .markLotCompleted lotID summary => (markLotCompleted db lotID summary).1
  | .upsertLotProduct input => (upsertLotProduct now db input).1
  | .updateLotComputedFields id opHour averagesJSON =>
    (updateLotComputedFields now db id opHour averagesJSON).1
  | .deleteLotByNumber lotNumber => (deleteLotByNumber db lotNumber).1

/-- The lot invariant of the data model: completedAt is set exactly when the
status is completed. -/
def LotInv (db : List LotRow) : Prop :=
  ∀ l ∈ db, l.status = LotStatus.completed ↔ l.completedAt.isSome

instance : DecidablePred LotInv := fun db => by
  unfold LotInv; infer_instance

/-- Number of rows whose status differs between two table states of equal
length (positional comparison). -/
def statusChanges (a b : List LotRow) : Nat :=
  ((a.zip b).filter (fun p => !(p.1.status == p.2.status))).length

/-- One round of CompletionService.checkLots restricted to a single lot:
when the evaluation reports done the conditional completion update runs,
otherwise the lot is left untouched. -/
def checkLotStep (k : Nat) (threshold : ℚ) (db : List LotRow)
    (lotID : Int) (machineName : String) (readings : List SensorReading) :
    List LotRow :=
  match evaluateLot k threshold machineName readings with
  | (some summary, true) => (markLotCompleted db lotID summary).1
  | _ => db

/-! ## Sensor simulator (simulation.Simulator) -/

/-- Embeds simulation.sensorState. -/
inductive SensorState where
  | startup
  | running
  | shuttingDown
  | down
  deriving Repr, DecidableEq, Inhabited

/-- Package constants of simulation/simulator.go, as exact rationals. -/
def rebindCoefficient : ℚ := 1/10
def downCoefficient : ℚ := 1/4
def downNoiseScale : ℚ := 1/10
def defaultDownRatio : ℚ := 0
def minDownFraction : ℚ := 1/50
def startupInitialRatio : ℚ := 1/5
def startupRampCoefficient : ℚ := 2/5
def startupNoiseScale : ℚ := 1/20
def shutdownCoefficient : ℚ := 7/20
def shutdownNoiseScale : ℚ := 1/20

/-- Embeds simulation.durationRange. -/
structure DurationRange where
  min : Int
  max : Int
  deriving Repr, DecidableEq, Inhabited

def defaultStartupRange : DurationRange := { min := 3, max := 6 }
def defaultRunRange : DurationRange := { min := 6, max := 24 }
def defaultShutdownRange : DurationRange := { min := 3, max := 6 }
def defaultDownRange : DurationRange := { min := 6, max := 14 }

/-- Deterministic embedding of the *rand.Rand source: explicit streams of
Float64 outputs (rationals, nominally in [0,1)) and raw naturals for Intn,
each with a cursor. -/
structure Rng where
  floats : Nat → ℚ
  ints : Nat → Nat
  fi : Nat := 0
  ni : Nat := 0

/-- One rand.Float64 draw. -/
def Rng.nextFloat (r : Rng) : ℚ × Rng :=
  (r.floats r.fi, { r with fi := r.fi + 1 })

/-- One rand.Intn draw; the raw stream value is reduced mod n so the result
is in [0, n) like the source's contract (n is positive at every call site). -/
def Rng.intn (r : Rng) (n : Nat) : Nat × Rng :=
  (r.ints r.ni % n, { r with ni := r.ni + 1 })

/-- Embeds simulation.Sensor (public value fields plus the private state
machine fields). -/
structure SimSensor where
  machineName : String
  sensorName : String
  currentValue : ℚ
  status : String
  baseline : ℚ
  drift : ℚ
  state : SensorState
  ticksRemaining : Int
  startupRange : DurationRange
  runRange : DurationRange
  shutdownRange : DurationRange
  downRange : DurationRange
  downTarget : ℚ

/-- Embeds Simulator.randomTicks. -/
def randomTicks (rng : Rng) (r : DurationRange) : Int × Rng :=
  let mn := if r.min < 1 then 1 else r.min
  let mx := if r.max < mn then mn else r.max
  let span := mx - mn + 1
  let span := if span ≤ 0 then 1 else span
  let draw := rng.intn span.toNat
  (mn + (draw.1 : Int), draw.2)

/-- Embeds Simulator.enterState. -/
def enterState (rng : Rng) (sensor : SimSensor) (newState : SensorState) :
    SimSensor × Rng :=
  let sensor := { sensor with state := newState }
  match newState with
  | .startup =>
    let sensor := { sensor with status := "starting" }
    let t := randomTicks rng sensor.startupRange
    let sensor := { sensor with ticksRemaining := t.1 }
    if 0 < sensor.baseline then
      let base := sensor.baseline * startupInitialRatio
      let f := t.2.nextFloat
      let noise := (f.1 - 1/2) * sensor.drift * startupNoiseScale
      let v := base + noise
      let v := if v < 0 then 0 else v
      let v := if sensor.baseline < v then sensor.baseline else v
      ({ sensor with currentValue := v }, f.2)
    else (sensor, t.2)
  | .running =>
    let sensor := { sensor with status := "running" }
    let t := randomTicks rng sensor.runRange
    let sensor := { sensor with ticksRemaining := t.1 }
    if 0 < sensor.baseline ∧ sensor.currentValue < sensor.baseline * (8/10) then
      ({ sensor with currentValue :=
          sensor.currentValue + (sensor.baseline - sensor.currentValue) * (3/10) }, t.2)
    else (sensor, t.2)
  | .shuttingDown =>
    let sensor := { sensor with status := "shutting_down" }
    let t := randomTicks rng sensor.shutdownRange
    ({ sensor with ticksRemaining := t.1 }, t.2)
  | .down =>
    let sensor := { sensor with status := "down" }
    let t := randomTicks rng sensor.downRange
    let sensor := { sensor with ticksRemaining := t.1 }
    if sensor.downTarget < sensor.currentValue then
      ({ sensor with currentValue := sensor.downTarget }, t.2)
    else (sensor, t.2)

/-- Final non-negativity clamp at the end of Simulator.nextValue. -/
def clamp0 (v : ℚ) : ℚ :=
  if v < 0 then 0 else v

/-- Embeds Simulator.nextValue up to (but not including) the final
non-negativity clamp. -/
def nextValueRaw (rng : Rng) (sensor : SimSensor) : SimSensor × Rng :=
  let step :=
    if sensor.ticksRemaining ≤ 0 then
      match sensor.state with
      | .startup => enterState rng sensor .running
      | .running => enterState rng sensor .shuttingDown
      | .shuttingDown => enterState rng sensor .down
      | .down => enterState rng sensor .startup
    else (sensor, rng)
  let sensor := { step.1 with ticksRemaining := step.1.ticksRemaining - 1 }
  let rng := step.2
  match sensor.state with
  | .startup =>
    let sensor :=
      if 0 < sensor.baseline then
        { sensor with currentValue :=
            sensor.currentValue + (sensor.baseline - sensor.currentValue) * startupRampCoefficient }
      else sensor
    let f := rng.nextFloat
    ({ sensor with currentValue :=
        sensor.currentValue + (f.1 - 1/2) * sensor.drift * startupNoiseScale }, f.2)
  | .running =>
    let f := rng.nextFloat
    let change := (f.1 - 1/2) * sensor.drift
    let v := sensor.currentValue + change
    ({ sensor with currentValue := v + (sensor.baseline - v) * rebindCoefficient }, f.2)
  | .shuttingDown =>
    let v := sensor.currentValue + (sensor.downTarget - sensor.currentValue) * shutdownCoefficient
    let f := rng.nextFloat
    ({ sensor with currentValue := v + (f.1 - 1/2) * sensor.drift * shutdownNoiseScale }, f.2)
  | .down =>
    let v := sensor.currentValue + (sensor.downTarget - sensor.currentValue) * downCoefficient
    let f := rng.nextFloat
    let v := v + (f.1 - 1/2) * sensor.drift * downNoiseScale
    let v := if v < sensor.downTarget then sensor.downTarget else v
    let v :=
      if sensor.downTarget = 0 ∧ 0 < sensor.baseline ∧ v < sensor.baseline * minDownFraction then 0
      else v
    ({ sensor with currentValue := v }, f.2)

/-- Embeds Simulator.nextValue: state transition when the dwell ran out,
per-state value evolution, and the final clamp to non-negative values;
returns the emitted value together with the updated sensor and source. -/
def nextValue (rng : Rng) (sensor : SimSensor) : ℚ × SimSensor × Rng :=
  let raw := nextValueRaw rng sensor
  let sensor := { raw.1 with currentValue := clamp0 raw.1.currentValue }
  (sensor.currentValue, sensor, raw.2)

/-- Reading captured for the time-series write in Simulator.tick (the copy
built from the sensor after nextValue ran). -/
structure Reading where
  machineName : String
  sensorName : String
  currentValue : ℚ
  status : String

/-- Embeds the per-tick loop over the active machine's sensors: sensors of
the current machine advance via nextValue and produce readings, all other
sensors are frozen. -/
def tickSensors (machine : String) (rng : Rng) :
    List SimSensor → List SimSensor × List Reading × Rng
  | [] => ([], [], rng)
  | s :: rest =>
    if s.machineName = machine then
      let nv := nextValue rng s
      let s' := nv.2.1
      let reading : Reading :=
        { machineName := s'.machineName
          sensorName := s'.sensorName
          currentValue := nv.1
          status := s'.status }
      let next := tickSensors machine nv.2.2 rest
      (s' :: next.1, reading :: next.2.1, next.2.2)
    else
      let next := tickSensors machine rng rest
      (s :: next.1, next.2.1, next.2.2)

/-- Embeds the influxdb2 point built in Simulator.tick: tags machine_name
and sensor_name, a single value field, and the tick timestamp. -/
structure Point where
  measurement : String
  tags : List (String × String)
  fields : List (String × ℚ)
  ts : Int

/-- The point written for one reading in Simulator.tick. -/
def pointOf (r : Reading) (ts : Int) : Point :=
  { measurement := "sensor_data"
    tags := [("machine_name", r.machineName), ("sensor_name", r.sensorName)]
    fields := [("value", r.currentValue)]
    ts := ts }

/-- Embeds the Simulator's mutable state (the mutex is modelled separately
by the tick event trace).  points and events log the time-series writes and
the cycle-complete notifications; listeners counts the registered cycle
listeners. -/
structure SimState where
  sensors : List SimSensor
  machineOrder : List String
  machineIndex : Nat
  machineIteration : Int
  machineIterations : Int
  enabled : Bool
  rng : Rng
  points : List Point := []
  events : List (Int × String) := []
  listeners : Nat := 0

/-- Embeds Simulator.tick: no-op while disabled or without machines;
otherwise advances the current machine's sensors, steps the rotation
counters, writes one point per reading and, when the rotation index wraps
to zero, appends one cycle-complete notification carrying the machine just
vacated. -/
def tick (st : SimState) (ts : Int) : SimState :=
  if !st.enabled || st.machineOrder.isEmpty then st
  else
    let currentMachine := st.machineOrder.getD st.machineIndex ""
    let tr := tickSensors currentMachine st.rng st.sensors
    let iter := st.machineIteration + 1
    let wrap := st.machineIterations ≤ iter
    let iteration' := if wrap then 0 else iter
    let index' := if wrap then (st.machineIndex + 1) % st.machineOrder.length else st.machineIndex
    let cycleComplete := wrap ∧ index' = 0
    { st with sensors := tr.1
              rng := tr.2.2
              machineIteration := iteration'
              machineIndex := index'
              points := st.points ++ tr.2.1.map (fun r => pointOf r ts)
              events := if cycleComplete then st.events ++ [(ts, currentMachine)] else st.events }

/-- n ticks, the k-th at timestamp k-1. -/
def tickN : Nat → SimState → SimState
  | 0, st => st
  | n + 1, st => tick (tickN n st) (n : Int)

/-- First-seen order of machine names, as built by the initialization loop. -/
def firstSeenOrder (machines : List String) : List String :=
  machines.foldl (fun acc m => if m ∈ acc then acc else acc ++ [m]) []

/-- Per-sensor defaulting at the top of the initialization loop of
Simulator.initializeSensors. -/
def applySensorDefaults (s : SimSensor) : SimSensor :=
  let s := if s.startupRange.min = 0 ∧ s.startupRange.max = 0 then
    { s with startupRange := defaultStartupRange } else s
  let s := if s.runRange.min = 0 ∧ s.runRange.max = 0 then
    { s with runRange := defaultRunRange } else s
  let s := if s.shutdownRange.min = 0 ∧ s.shutdownRange.max = 0 then
    { s with shutdownRange := defaultShutdownRange } else s
  let s := if s.downRange.min = 0 ∧ s.downRange.max = 0 then
    { s with downRange := defaultDownRange } else s
  if s.downTarget = 0 ∧ 0 < s.baseline then
    { s with downTarget := s.baseline * defaultDownRatio }
  else s

/-- The sensor loop of Simulator.initializeSensors: defaults then a forced
transition to Startup, threading the random source. -/
def initSensorsLoop (rng : Rng) : List SimSensor → List SimSensor × Rng
  | [] => ([], rng)
  | s :: rest =>
    let s := applySensorDefaults s
    let e := enterState rng s .startup
    let next := initSensorsLoop e.2 rest
    (e.1 :: next.1, next.2)

/-- Embeds Simulator.initializeSensors (named initSensors here): rebuilds
the machine grouping in first-seen order, clamps machineIterations to at
least one, zeroes the rotation counters and forces every sensor into
Startup. -/
def initSensors (st : SimState) : SimState :=
  let iters := if st.machineIterations ≤ 0 then 1 else st.machineIterations
  let run := initSensorsLoop st.rng st.sensors
  { st with sensors := run.1
            rng := run.2
            machineOrder := firstSeenOrder (st.sensors.map (fun s => s.machineName))
            machineIterations := iters
            machineIndex := 0
            machineIteration := 0 }

/-- Embeds Simulator.Enable: a no-op when already enabled, otherwise
re-initializes the sensors and switches generation on. -/
def enable (st : SimState) : SimState :=
  if st.enabled then st
  else { initSensors st with enabled := true }

/-- Embeds Simulator.Disable: a no-op when already disabled, otherwise
switches generation off and zeroes the rotation counters. -/
def disable (st : SimState) : SimState :=
  if !st.enabled then st
  else { st with enabled := false, machineIndex := 0, machineIteration := 0 }

/-! ## Coordinator (simulation.Coordinator) -/

/-- Embeds Coordinator.syncSimulation on the success path of the
HasActiveLots query: active lots enable the simulator, none disable it. -/
def syncSimulation (db : List LotRow) (st : SimState) : SimState :=
  if hasActiveLots db then enable st else disable st

/-! ## Lock/IO event trace of one tick (concurrency model) -/

/-- Events of one Simulator.tick in program order: mutex acquire/release,
an in-memory sensor update per active sensor, a time-series write per
reading, the cycle-listener read lock, and one listener invocation per
registered listener. -/
inductive Ev where
  | lockAcq
  | lockRel
  | memUpdate
  | ioWrite
  | rlockAcq
  | rlockRel
  | invoke
  deriving Repr, DecidableEq

/-- The event trace of one Simulator.tick (including the
notifyCycleComplete call it may make), in the statement order of the
source: the exclusive lock brackets only the in-memory update, the
time-series writes follow the unlock, and listener invocations follow the
release of the read lock under which the listener list was copied. -/
def tickEvents (st : SimState) : List Ev :=
  if !st.enabled || st.machineOrder.isEmpty then [Ev.lockAcq, Ev.lockRel]
  else
    let currentMachine := st.machineOrder.getD st.machineIndex ""
    let tr := tickSensors currentMachine st.rng st.sensors
    let iter := st.machineIteration + 1
    let wrap := st.machineIterations ≤ iter
    let index' := if wrap then (st.machineIndex + 1) % st.machineOrder.length else st.machineIndex
    let cycleComplete := wrap ∧ index' = 0
    [Ev.lockAcq] ++ tr.2.1.map (fun _ => Ev.memUpdate) ++ [Ev.lockRel]
      ++ tr.2.1.map (fun _ => Ev.ioWrite)
      ++ (if cycleComplete then
            [Ev.rlockAcq, Ev.rlockRel] ++ List.replicate st.listeners Ev.invoke
          else [])

/-! ## Configuration parsing (simulation/config.go) -/

/-- Go's defaultInterval (1 second) in nanoseconds. -/
def defaultIntervalNs : Int := 1000000000

/-- Go's defaultMachineIters. -/
def defaultMachineIters : Int := 2

def isDigitChar (c : Char) : Bool :=
  48 ≤ c.toNat && c.toNat ≤ 57

/-- Leading decimal digits of a duration component (time.leadingInt,
overflow checking omitted). -/
def leadingInt : List Char → Nat × List Char
  | [] => (0, [])
  | c :: cs =>
    if isDigitChar c then
      let rest := leadingInt cs
      let digits := cs.takeWhile isDigitChar
      ((c.toNat - 48) * 10 ^ digits.length + rest.1, rest.2)
    else (0, c :: cs)

/-- Fractional digits of a duration component: value and scale
(time.leadingFraction). -/
def leadingFraction : List Char → Nat × Nat × List Char
  | [] => (0, 1, [])
  | c :: cs =>
    if isDigitChar c then
      let rest := leadingFraction cs
      ((c.toNat - 48) * rest.2.1 + rest.1, 10 * rest.2.1, rest.2.2)
    else (0, 1, c :: cs)

/-- Modelled from the Go standard library: the unit table of
time.ParseDuration, in nanoseconds. -/
def unitValue : List Char → Option Int
  | ['n', 's'] => some 1
  | ['u', 's'] => some 1000
  | ['µ', 's'] => some 1000
  | ['μ', 's'] => some 1000
  | ['m', 's'] => some 1000000
  | ['s'] => some 1000000000
  | ['m'] => some 60000000000
  | ['h'] => some 3600000000000
  | _ => none

/-- One number-unit component of a duration string; the fractional part is
floored as in the source's integer conversion. -/
def parseComponent (s : List Char) : Option (Int × List Char) :=
  match s with
  | [] => none
  | c :: _ =>
    if isDigitChar c || c == '.' then
      let li := leadingInt s
      let v := li.1
      let pre := decide (li.2.length ≠ s.length)
      let afterInt := li.2
      let fr :=
        match afterInt with
        | '.' :: cs =>
          let lf := leadingFraction cs
          (lf.1, lf.2.1, lf.2.2, decide (lf.2.2.length ≠ cs.length))
        | _ => (0, 1, afterInt, false)
      if !pre && !fr.2.2.2 then none
      else
        let rest := fr.2.2.1
        let unitChars := rest.takeWhile (fun c => !(isDigitChar c || c == '.'))
        if unitChars.isEmpty then none
        else
          match unitValue unitChars with
          | none => none
          | some unit =>
            some ((v : Int) * unit + ((fr.1 : Int) * unit) / (fr.2.1 : Int),
                  rest.drop unitChars.length)
    else none

/-- Component loop of time.ParseDuration, with fuel bounded by the string
length (each component consumes at least its unit characters). -/
def parseLoop (fuel : Nat) (acc : Int) (s : List Char) : Option Int :=
  match fuel with
  | 0 => none
  | fuel + 1 =>
    match s with
    | [] => some acc
    | _ =>
      match parseComponent s with
      | none => none
      | some (v, rest) =>
        if rest.length < s.length then parseLoop fuel (acc + v) rest
        else none

/-- Modelled from the Go standard library: time.ParseDuration (called by
IntervalFromString), returning nanoseconds; int64 overflow checking is
omitted and the float fraction conversion is modelled by exact integer
floor division. -/
def parseDuration (raw : String) : Option Int :=
  let s := raw.data
  let sp :=
    match s with
    | '-' :: cs => (true, cs)
    | '+' :: cs => (false, cs)
    | _ => (false, s)
  if sp.2 = ['0'] then some 0
  else if sp.2.isEmpty then none
  else
    match parseLoop (sp.2.length + 1) 0 sp.2 with
    | none => none
    | some d => some (if sp.1 then -d else d)

/-- Embeds simulation.IntervalFromString: empty, unparsable or non-positive
input falls back to the default interval. -/
def intervalFromString (raw : String) : Int :=
  if raw = "" then defaultIntervalNs
  else
    match parseDuration raw with
    | none => defaultIntervalNs
    | some dur => if dur ≤ 0 then defaultIntervalNs else dur

/-- Modelled from the Go standard library: strconv.Atoi with the int64
range check. -/
def atoi (raw : String) : Option Int :=
  let sp :=
    match raw.data with
    | '-' :: cs => (true, cs)
    | '+' :: cs => (false, cs)
    | _ => (false, raw.data)
  if sp.2.isEmpty then none
  else if !(sp.2.all isDigitChar) then none
  else
    let n : Nat := sp.2.foldl (fun acc c => acc * 10 + (c.toNat - 48)) 0
    let v : Int := if sp.1 then -(n : Int) else (n : Int)
    if v < -(2 ^ 63) || 2 ^ 63 - 1 < v then none else some v

/-- Embeds simulation.MachineIterationsFromEnv as a function of the raw
environment value: empty, unparsable or non-positive input falls back to
the default. -/
def machineIterationsFromEnv (raw : String) : Int :=
  if raw = "" then defaultMachineIters
  else
    match atoi raw with
    | none => defaultMachineIters
    | some iterations => if iterations ≤ 0 then defaultMachineIters else iterations

/-! ## Derived definitions used in theorem statements -/

/-- The per-sensor check performed inside the loop of evaluateLot: full
window and every retained sample down. -/
def groupOk (k : Nat) (threshold : ℚ) (samples : List SensorReading) : Bool :=
  decide (k ≤ samples.length) && isDownSample (samples.headD default) threshold
    && (samples.tail).all (fun r => isDownSample r threshold)

/-- Model of the row construction in Client.recentSensorReadings for a
stored point: the flux query keeps only the "value" field, so the status
column can only come from a "status" tag; ValueByKey of an absent column
stringifies to the empty string. -/
def readingOfPoint (p : Point) : SensorReading :=
  { time := p.ts
    machineName := (p.tags.lookup "machine_name").getD ""
    sensorName := (p.tags.lookup "sensor_name").getD ""
    status := (p.tags.lookup "status").getD ""
    value := (p.fields.lookup "value").getD 0 }

/-- Transition stability: a completed lot never becomes processing again
and keeps its completion timestamp. -/
def NoReverse (a b : List LotRow) : Prop :=
  ∀ l' ∈ b, ∀ l ∈ a, l.id = l'.id → l.status = LotStatus.completed →
    l'.status = LotStatus.completed ∧ l'.completedAt = l.completedAt

/-- Every row without a predecessor of the same id was inserted as
processing with completedAt unset. -/
def FreshProcessing (a b : List LotRow) : Prop :=
  ∀ l' ∈ b, (∀ l ∈ a, l.id ≠ l'.id) → l'.status = LotStatus.processing ∧ l'.completedAt = none

/-- No surviving row changed its status or completedAt. -/
def StatusFrozen (a b : List LotRow) : Prop :=
  ∀ l ∈ a, ∀ l' ∈ b, l.id = l'.id → l'.status = l.status ∧ l'.completedAt = l.completedAt

/-! ## Concrete example data -/

/-- Deterministic random source for concrete runs. -/
def exRng : Rng := { floats := fun _ => 1/2, ints := fun _ => 0 }

/-- A freshly configured sensor, as handed to simulation.New. -/
def exSensor (machine sensor : String) : SimSensor :=
  { machineName := machine
    sensorName := sensor
    currentValue := 0
    status := ""
    baseline := 50
    drift := 2
    state := .startup
    ticksRemaining := 0
    startupRange := { min := 0, max := 0 }
    runRange := { min := 0, max := 0 }
    shutdownRange := { min := 0, max := 0 }
    downRange := { min := 0, max := 0 }
    downTarget := 0 }

/-- A disabled simulator over three machines with iterationsPerMachine 2. -/
def exDisabled : SimState :=
  { sensors := [exSensor "A" "s1", exSensor "B" "s2", exSensor "C" "s3"]
    machineOrder := []
    machineIndex := 0
    machineIteration := 0
    machineIterations := 2
    enabled := false
    rng := exRng
    listeners := 1 }

/-- An enabled simulator mid-rotation (the state Coordinator polling
reaches between cycle boundaries while lots stay active). -/
def exMidCycle : SimState :=
  { sensors := [{ exSensor "A" "s1" with state := .running, status := "running" }]
    machineOrder := ["A", "B"]
    machineIndex := 1
    machineIteration := 0
    machineIterations := 2
    enabled := true
    rng := exRng
    listeners := 0 }

/-- A reading carrying no status column, as produced from a simulator
point. -/
def exEmptyReading : SensorReading :=
  { time := 0, machineName := "m", sensorName := "s", status := "", value := 0 }

/-- A processing lot row. -/
def exRow : LotRow := newLotRow 1 "LOT-1" "A" 0

/-- A completion summary payload. -/
def exSummary : LotSummary := { completedAt := 10, machineName := "A" }

/-- A second, different completion summary payload. -/
def exSummary2 : LotSummary := { completedAt := 99, machineName := "A" }

/-! ## Lemmas about the completion detector -/

theorem addReading_ne_nil {k : Nat} {r : SensorReading}
    {acc : List (String × List SensorReading)} (h : acc ≠ []) :
    addReading k r acc ≠ [] := by
  cases acc with
  | nil => exact absurd rfl h
  | cons e rest =>
    obtain ⟨n, w⟩ := e
    simp only [addReading]
    split
    · split <;> simp
    · simp

theorem foldl_addReading_ne_nil (k : Nat) (l : List SensorReading) :
    ∀ acc, acc ≠ [] → l.foldl (fun acc r => addReading k r acc) acc ≠ [] := by
  induction l with
  | nil => intro acc h; simpa using h
  | cons r rest ih => intro acc h; exact ih _ (addReading_ne_nil h)

theorem sensorWindows_ne_nil {k : Nat} (hk : k ≠ 0) (first : SensorReading)
    (rest : List SensorReading) : sensorWindows k (first :: rest) ≠ [] := by
  unfold sensorWindows
  simp only [List.foldl_cons]
  apply foldl_addReading_ne_nil
  simp [addReading, hk]

theorem sensorWindows_zero (l : List SensorReading) : sensorWindows 0 l = [] := by
  induction l with
  | nil => rfl
  | cons r rest ih =>
    unfold sensorWindows at ih ⊢
    simpa [addReading] using ih

theorem addReading_keys (k : Nat) (r : SensorReading) :
    ∀ acc : List (String × List SensorReading),
    (addReading k r acc).map Prod.fst = acc.map Prod.fst ∨
    ((addReading k r acc).map Prod.fst = acc.map Prod.fst ++ [r.sensorName] ∧
      r.sensorName ∉ acc.map Prod.fst) := by
  intro acc
  induction acc with
  | nil =>
    by_cases h : k = 0
    · left; simp [addReading, h]
    · right; simp [addReading, h]
  | cons e rest ih =>
    obtain ⟨n, w⟩ := e
    by_cases h : n = r.sensorName
    · left
      simp only [addReading, if_pos h]
      split <;> simp
    · simp only [addReading, if_neg h]
      rcases ih with h1 | ⟨h1, h2⟩
      · left; simp [h1]
      · right
        refine ⟨by simp [h1], ?_⟩
        simp only [List.map_cons, List.mem_cons, not_or]
        exact ⟨fun hh => h hh.symm, h2⟩

theorem foldl_addReading_keys_nodup (k : Nat) (l : List SensorReading) :
    ∀ acc, (acc.map Prod.fst).Nodup →
      ((l.foldl (fun acc r => addReading k r acc) acc).map Prod.fst).Nodup := by
  induction l with
  | nil => intro acc h; simpa using h
  | cons r rest ih =>
    intro acc h
    apply ih
    rcases addReading_keys k r acc with h1 | ⟨h1, h2⟩
    · rwa [h1]
    · rw [h1, List.nodup_append]
      exact ⟨h, List.nodup_singleton _, by simpa [List.disjoint_singleton] using h2⟩

theorem sensorWindows_keys_nodup (k : Nat) (rs : List SensorReading) :
    ((sensorWindows k rs).map Prod.fst).Nodup :=
  foldl_addReading_keys_nodup k rs [] (by simp)

theorem addReading_entries {Q : SensorReading → Prop} {k : Nat} {r : SensorReading}
    {acc : List (String × List SensorReading)}
    (h : ∀ e ∈ acc, e.2 ≠ [] ∧ ∀ x ∈ e.2, Q x) (hr : Q r) :
    ∀ e ∈ addReading k r acc, e.2 ≠ [] ∧ ∀ x ∈ e.2, Q x := by
  induction acc with
  | nil =>
    intro e he
    by_cases hk : k = 0
    · simp [addReading, hk] at he
    · simp only [addReading, if_neg hk, List.mem_singleton] at he
      subst he
      exact ⟨by simp, by simpa using hr⟩
  | cons a rest ih =>
    obtain ⟨n, w⟩ := a
    intro e he
    have ha := h (n, w) (List.mem_cons_self _ _)
    have hrest : ∀ e ∈ rest, e.2 ≠ [] ∧ ∀ x ∈ e.2, Q x :=
      fun e he => h e (List.mem_cons_of_mem _ he)
    simp only [addReading] at he
    by_cases hn : n = r.sensorName
    · rw [if_pos hn] at he
      by_cases hlen : k ≤ w.length
      · rw [if_pos hlen] at he
        exact h e he
      · rw [if_neg hlen] at he
        rcases List.mem_cons.mp he with h1 | h1
        · subst h1
          refine ⟨by simp, ?_⟩
          intro x hx
          rcases List.mem_append.mp hx with hx | hx
          · exact ha.2 x hx
          · simpa using (List.mem_singleton.mp hx) ▸ hr
        · exact hrest e h1
    · rw [if_neg hn] at he
      rcases List.mem_cons.mp he with h1 | h1
      · subst h1; exact ha
      · exact ih hrest e h1

theorem foldl_addReading_entries {Q : SensorReading → Prop} (k : Nat)
    (l : List SensorReading) :
    ∀ acc, (∀ e ∈ acc, e.2 ≠ [] ∧ ∀ x ∈ e.2, Q x) → (∀ r ∈ l, Q r) →
      ∀ e ∈ l.foldl (fun acc r => addReading k r acc) acc,
        e.2 ≠ [] ∧ ∀ x ∈ e.2, Q x := by
  induction l with
  | nil => intro acc h _; simpa using h
  | cons r rest ih =>
    intro acc h hl
    exact ih _ (addReading_entries h (hl r (List.mem_cons_self _ _)))
      (fun x hx => hl x (List.mem_cons_of_mem _ hx))

theorem sensorWindows_entries (k : Nat) (rs : List SensorReading) :
    ∀ e ∈ sensorWindows k rs, e.2 ≠ [] ∧ ∀ x ∈ e.2, x ∈ rs :=
  foldl_addReading_entries k rs [] (by simp) (fun _ hr => hr)

theorem lookup_of_mem_nodup : ∀ (W : List (String × List SensorReading))
    (n : String) (w : List SensorReading),
    (W.map Prod.fst).Nodup → (n, w) ∈ W → W.lookup n = some w := by
  intro W
  induction W with
  | nil => intro n w _ h; simp at h
  | cons e rest ih =>
    intro n w hnd hmem
    obtain ⟨m, v⟩ := e
    simp only [List.map_cons, List.nodup_cons] at hnd
    rcases List.mem_cons.mp hmem with h | h
    · obtain ⟨hn, hw⟩ := Prod.mk.injEq .. ▸ h
      subst hn; subst hw
      simp [List.lookup]
    · have hne : n ≠ m := by
        intro he
        subst he
        exact hnd.1 (List.mem_map_of_mem Prod.fst h)
      have hb : (n == m) = false := beq_eq_false_iff_ne.mpr hne
      simp only [List.lookup, hb]
      exact ih n w hnd.2 h

theorem evalLoop_snd (k : Nat) (threshold : ℚ)
    (W : List (String × List SensorReading)) :
    ∀ names, (evalLoop k threshold W names).2
      = names.all (fun n => groupOk k threshold ((W.lookup n).getD [])) := by
  intro names
  induction names with
  | nil => rfl
  | cons n rest ih =>
    simp only [evalLoop, List.all_cons, groupOk, ih]

theorem groupOk_iff {k : Nat} {threshold : ℚ} {w : List SensorReading} (hw : w ≠ []) :
    groupOk k threshold w = true ↔
      (k ≤ w.length ∧ ∀ r ∈ w, isDownSample r threshold = true) := by
  cases w with
  | nil => exact absurd rfl hw
  | cons a as =>
    simp only [groupOk, Bool.and_eq_true, decide_eq_true_eq, List.all_eq_true,
      List.headD_cons, List.tail_cons, List.forall_mem_cons]
    tauto

theorem insertName_perm (x : String) : ∀ l, List.Perm (insertName x l) (x :: l) := by
  intro l
  induction l with
  | nil => exact List.Perm.refl _
  | cons y ys ih =>
    simp only [insertName]
    split
    · exact List.Perm.refl _
    · exact (List.Perm.cons y ih).trans (List.Perm.swap x y ys)

theorem sortNames_perm : ∀ l, List.Perm (sortNames l) l := by
  intro l
  induction l with
  | nil => exact List.Perm.refl _
  | cons a l ih => exact (insertName_perm a (sortNames l)).trans (ih.cons a)

theorem mem_sortNames {a : String} {l : List String} : a ∈ sortNames l ↔ a ∈ l :=
  (sortNames_perm l).mem_iff

theorem evalDone_iff (k : Nat) (threshold : ℚ) (machine : String)
    (readings : List SensorReading) (hk : 1 ≤ k) :
    (evaluateLot k threshold machine readings).2 = true ↔
      (readings ≠ [] ∧ ∀ e ∈ sensorWindows k readings,
        k ≤ e.2.length ∧ ∀ r ∈ e.2, isDownSample r threshold = true) := by
  cases readings with
  | nil => simp [evaluateLot]
  | cons first rest =>
    have hk0 : k ≠ 0 := by omega
    have hW := sensorWindows_ne_nil hk0 first rest
    have hempty : (sensorWindows k (first :: rest)).isEmpty = false := by
      simp [List.isEmpty_iff, hW]
    have hchain : (evaluateLot k threshold machine (first :: rest)).2
        = (evalLoop k threshold (sensorWindows k (first :: rest))
            (sortNames ((sensorWindows k (first :: rest)).map Prod.fst))).2 := by
      simp only [evaluateLot, hempty, Bool.false_eq_true, if_false]
      split <;> simp_all
    rw [hchain, evalLoop_snd, List.all_eq_true]
    constructor
    · intro h
      refine ⟨by simp, ?_⟩
      intro e he
      have hn : e.1 ∈ sortNames ((sensorWindows k (first :: rest)).map Prod.fst) :=
        mem_sortNames.mpr (List.mem_map_of_mem Prod.fst he)
      have hgo := h e.1 hn
      rw [lookup_of_mem_nodup _ e.1 e.2 (sensorWindows_keys_nodup k _) (by simpa using he)]
        at hgo
      exact (groupOk_iff (sensorWindows_entries k _ e he).1).mp (by simpa using hgo)
    · rintro ⟨-, h⟩ n hn
      obtain ⟨e, he, hfst⟩ := List.mem_map.mp (mem_sortNames.mp hn)
      have hmem : (n, e.2) ∈ sensorWindows k (first :: rest) := by
        rwa [← hfst, Prod.mk.eta]
      rw [lookup_of_mem_nodup _ n e.2 (sensorWindows_keys_nodup k _) hmem]
      simpa using (groupOk_iff (sensorWindows_entries k _ e he).1).mpr (h e he)

theorem checkLotStep_untouched (k : Nat) (threshold : ℚ) (db : List LotRow)
    (lotID : Int) (machine : String) (readings : List SensorReading)
    (h : (evaluateLot k threshold machine readings).2 = false) :
    checkLotStep k threshold db lotID machine readings = db := by
  unfold checkLotStep
  rcases hres : evaluateLot k threshold machine readings with ⟨o, b⟩
  rw [hres] at h
  simp only at h
  subst h
  cases o <;> rfl

/-- C1: evaluateLot reports a lot completion-eligible if and only if the
queried readings are non-empty and, after grouping the newest-first
readings by sensor name and retaining at most samplesRequired readings per
sensor, every sensor group has at least samplesRequired samples and every
retained sample satisfies the down predicate (status "down" ignoring case
and value at most zeroThreshold); when the evaluation is negative the
check-lots round leaves the lot untouched. -/
theorem evaluateLot_completion_eligibility (k : Nat) (threshold : ℚ)
    (machine : String) (readings : List SensorReading) (hk : 1 ≤ k) :
    ((evaluateLot k threshold machine readings).2 = true ↔
      (readings ≠ [] ∧ ∀ e ∈ sensorWindows k readings,
        k ≤ e.2.length ∧ ∀ r ∈ e.2, isDownSample r threshold = true)) ∧
    (∀ (db : List LotRow) (lotID : Int),
      (evaluateLot k threshold machine readings).2 = false →
      checkLotStep k threshold db lotID machine readings = db) :=
  ⟨evalDone_iff k threshold machine readings hk,
   fun db lotID h => checkLotStep_untouched k threshold db lotID machine readings h⟩

/-- Witness for C1 at samplesRequired three and threshold five, on one
sensor with only two retained samples. -/
theorem evaluateLot_completion_eligibility_witness :
    ((evaluateLot 3 5 "m"
        [ { time := 2, machineName := "m", sensorName := "a", status := "down", value := 0 },
          { time := 1, machineName := "m", sensorName := "a", status := "down", value := 0 } ]).2
      = true ↔
      ([ ({ time := 2, machineName := "m", sensorName := "a", status := "down", value := 0 } :
            SensorReading),
         { time := 1, machineName := "m", sensorName := "a", status := "down", value := 0 } ] ≠ [] ∧
        ∀ e ∈ sensorWindows 3
          [ { time := 2, machineName := "m", sensorName := "a", status := "down", value := 0 },
            { time := 1, machineName := "m", sensorName := "a", status := "down", value := 0 } ],
          3 ≤ e.2.length ∧ ∀ r ∈ e.2, isDownSample r 5 = true)) ∧
    (∀ (db : List LotRow) (lotID : Int),
      (evaluateLot 3 5 "m"
        [ { time := 2, machineName := "m", sensorName := "a", status := "down", value := 0 },
          { time := 1, machineName := "m", sensorName := "a", status := "down", value := 0 } ]).2
        = false →
      checkLotStep 3 5 db lotID "m"
        [ { time := 2, machineName := "m", sensorName := "a", status := "down", value := 0 },
          { time := 1, machineName := "m", sensorName := "a", status := "down", value := 0 } ] = db) :=
  evaluateLot_completion_eligibility 3 5 "m"
    [ { time := 2, machineName := "m", sensorName := "a", status := "down", value := 0 },
      { time := 1, machineName := "m", sensorName := "a", status := "down", value := 0 } ]
    (by decide)

theorem eqFold_empty_down : eqFold "" "down" = false := by decide

theorem pointOf_no_status (r : Reading) (ts : Int) :
    (pointOf r ts).tags.lookup "status" = none ∧
    (pointOf r ts).fields.lookup "status" = none ∧
    (readingOfPoint (pointOf r ts)).status = "" := by
  refine ⟨rfl, rfl, rfl⟩

/-- C10: a reading with empty status text is never a down sample, the
points written by Simulator.tick carry no status tag or field (their query
image has empty status), and the completion detector never reports done on
readings that all carry no status. -/
theorem no_status_never_completes :
    (∀ (r : SensorReading) (threshold : ℚ), r.status = "" →
      isDownSample r threshold = false) ∧
    (∀ (st : SimState) (ts : Int), ∃ written,
      (tick st ts).points = st.points ++ written ∧
      ∀ p ∈ written, p.tags.lookup "status" = none ∧
        p.fields.lookup "status" = none ∧ (readingOfPoint p).status = "") ∧
    (∀ (k : Nat) (threshold : ℚ) (machine : String)
      (readings : List SensorReading),
      (∀ r ∈ readings, r.status = "") →
      (evaluateLot k threshold machine readings).2 = false) := by
  refine ⟨?_, ?_, ?_⟩
  · intro r threshold h
    simp [isDownSample, eqFold, h]
  · intro st ts
    by_cases hg : (!st.enabled || st.machineOrder.isEmpty) = true
    · exact ⟨[], by simp [tick, hg], by simp⟩
    · refine ⟨((tickSensors (st.machineOrder.getD st.machineIndex "") st.rng st.sensors).2.1).map
        (fun r => pointOf r ts), ?_, ?_⟩
      · simp only [tick, hg, Bool.false_eq_true, if_false]
      · intro p hp
        obtain ⟨r, _, hpr⟩ := List.mem_map.mp hp
        exact hpr ▸ pointOf_no_status r ts
  · intro k threshold machine readings h
    cases readings with
    | nil => rfl
    | cons first rest =>
      by_cases hk : k = 0
      · subst hk
        simp [evaluateLot, sensorWindows_zero]
      · by_contra hcon
        have hdone : (evaluateLot k threshold machine (first :: rest)).2 = true := by
          revert hcon
          cases (evaluateLot k threshold machine (first :: rest)).2 <;> simp
        obtain ⟨-, hall⟩ :=
          (evalDone_iff k threshold machine (first :: rest) (by omega)).mp hdone
        have hW := sensorWindows_ne_nil hk first rest
        obtain ⟨e, he⟩ := List.exists_mem_of_ne_nil _ hW
        obtain ⟨hne, hsub⟩ := sensorWindows_entries k (first :: rest) e he
        obtain ⟨r0, hr0⟩ := List.exists_mem_of_ne_nil _ hne
        have hdown := (hall e he).2 r0 hr0
        have hstat := h r0 (hsub r0 hr0)
        simp [isDownSample, eqFold, hstat] at hdown

/-- Witness for C10 at a concrete status-free reading and a concrete
disabled simulator state. -/
theorem no_status_never_completes_witness :
    isDownSample exEmptyReading 0 = false ∧
    (evaluateLot 3 0 "m" [exEmptyReading]).2 = false :=
  ⟨no_status_never_completes.1 exEmptyReading 0 rfl,
   no_status_never_completes.2.2 3 0 "m" [exEmptyReading]
     (by intro r hr; rw [List.mem_singleton.mp hr]; rfl)⟩

/-! ## Lemmas about the metadata repository -/

theorem markHits_status {lotID : Int} {l : LotRow} (h : markHits lotID l = true) :
    l.status = LotStatus.processing := by
  simp only [markHits, Bool.and_eq_true, beq_iff_eq] at h
  exact h.2

theorem statusChanges_mark (db : List LotRow) (lotID : Int) (s : LotSummary) :
    statusChanges db (db.map (fun l => if markHits lotID l then markRow s l else l))
      = (db.filter (markHits lotID)).length := by
  induction db with
  | nil => rfl
  | cons l rest ih =>
    simp only [statusChanges] at ih ⊢
    by_cases h : markHits lotID l = true
    · have hst : l.status = LotStatus.processing := markHits_status h
      have hpair : (!(l.status == (markRow s l).status)) = true := by
        simp [markRow, hst]
      simp [List.zip_cons_cons, List.filter_cons, h, hpair, ih]
    · simp [List.zip_cons_cons, List.filter_cons, h, ih]

theorem markHits_after (lotID : Int) (s : LotSummary) (l : LotRow) :
    markHits lotID (if markHits lotID l then markRow s l else l) = false := by
  by_cases h : markHits lotID l = true
  · rw [if_pos h]
    simp [markHits, markRow]
  · have h' : markHits lotID l = false := by revert h; cases markHits lotID l <;> simp
    rw [if_neg (by simp [h'])]
    exact h'

/-- C3: invoking the conditional completion update twice on the same lot
changes exactly one row's status; the second call affects zero rows, leaves
the table (hence completedAt and the stored summary) unchanged, and reports
the benign lost-race signal recognised as sql.ErrNoRows rather than a
surfaced error. -/
theorem markLotCompleted_idempotent (db : List LotRow) (lotID : Int)
    (s1 s2 : LotSummary)
    (h : (db.filter (markHits lotID)).length = 1) :
    (markLotCompleted db lotID s1).2 = Except.ok () ∧
    statusChanges db (markLotCompleted db lotID s1).1 = 1 ∧
    (markLotCompleted (markLotCompleted db lotID s1).1 lotID s2).1
      = (markLotCompleted db lotID s1).1 ∧
    (markLotCompleted (markLotCompleted db lotID s1).1 lotID s2).2
      = Except.error DbError.noRows ∧
    errorsIsNoRows DbError.noRows = true := by
  have hnone : ∀ l' ∈ db.map (fun l => if markHits lotID l then markRow s1 l else l),
      markHits lotID l' = false := by
    intro l' hl'
    obtain ⟨l₀, _, rfl⟩ := List.mem_map.mp hl'
    exact markHits_after lotID s1 l₀
  have hfilter : List.filter (markHits lotID)
      (db.map (fun l => if markHits lotID l then markRow s1 l else l)) = [] := by
    rw [List.filter_eq_nil_iff]
    intro a ha
    simp [hnone a ha]
  refine ⟨?_, ?_, ?_, ?_, rfl⟩
  · simp only [markLotCompleted]
    rw [if_neg (by omega)]
  · simpa only [markLotCompleted] using statusChanges_mark db lotID s1 |>.trans h
  · simp only [markLotCompleted]
    conv_lhs => rw [List.map_congr_left (fun l hl => if_neg (by simp [hnone l hl]))]
    exact List.map_id _
  · simp only [markLotCompleted]
    simp [hfilter]

/-- Witness for C3 on a one-row table holding a processing lot. -/
theorem markLotCompleted_idempotent_witness :
    (markLotCompleted [exRow] 1 exSummary).2 = Except.ok () ∧
    statusChanges [exRow] (markLotCompleted [exRow] 1 exSummary).1 = 1 ∧
    (markLotCompleted (markLotCompleted [exRow] 1 exSummary).1 1 exSummary2).1
      = (markLotCompleted [exRow] 1 exSummary).1 ∧
    (markLotCompleted (markLotCompleted [exRow] 1 exSummary).1 1 exSummary2).2
      = Except.error DbError.noRows ∧
    errorsIsNoRows DbError.noRows = true :=
  markLotCompleted_idempotent [exRow] 1 exSummary exSummary2 (by decide)

theorem row_id_inj {db : List LotRow} (hids : (db.map LotRow.id).Nodup)
    {a b : LotRow} (ha : a ∈ db) (hb : b ∈ db) (h : a.id = b.id) : a = b :=
  List.inj_on_of_nodup_map hids ha hb h

theorem subStep {db b : List LotRow} (hids : (db.map LotRow.id).Nodup)
    (hinv : LotInv db) (hsub : ∀ l ∈ b, l ∈ db) :
    LotInv b ∧ NoReverse db b ∧ FreshProcessing db b ∧ StatusFrozen db b := by
  refine ⟨?_, ?_, ?_, ?_⟩
  · intro l hl; exact hinv l (hsub l hl)
  · intro l' hl' l hl hid hc
    have heq : l = l' := row_id_inj hids hl (hsub _ hl') hid
    subst heq
    exact ⟨hc, rfl⟩
  · intro l' hl' hno
    exact absurd rfl (hno l' (hsub l' hl'))
  · intro l hl l' hl' hid
    have heq : l = l' := row_id_inj hids hl (hsub _ hl') hid
    subst heq
    exact ⟨rfl, rfl⟩

theorem masterStep {db news b : List LotRow} {f : LotRow → LotRow}
    (hb : b = (db ++ news).map f)
    (hf : ∀ l, (f l).id = l.id ∧ (f l).status = l.status ∧
      (f l).completedAt = l.completedAt)
    (hnews : ∀ n ∈ news, (∀ l ∈ db, l.id ≠ n.id) ∧
      n.status = LotStatus.processing ∧ n.completedAt = none)
    (hids : (db.map LotRow.id).Nodup) (hinv : LotInv db) :
    LotInv b ∧ NoReverse db b ∧ FreshProcessing db b ∧ StatusFrozen db b := by
  subst hb
  refine ⟨?_, ?_, ?_, ?_⟩
  · intro l' hl'
    obtain ⟨l₀, hl₀, rfl⟩ := List.mem_map.mp hl'
    rw [(hf l₀).2.1, (hf l₀).2.2]
    rcases List.mem_append.mp hl₀ with h | h
    · exact hinv l₀ h
    · obtain ⟨-, hst, hca⟩ := hnews l₀ h
      rw [hst, hca]
      simp
  · intro l' hl' l hl hid hc
    obtain ⟨l₀, hl₀, rfl⟩ := List.mem_map.mp hl'
    rw [(hf l₀).1] at hid
    rcases List.mem_append.mp hl₀ with h | h
    · have heq : l = l₀ := row_id_inj hids hl h hid
      subst heq
      rw [(hf l).2.1, (hf l).2.2]
      exact ⟨hc, rfl⟩
    · exact absurd hid ((hnews l₀ h).1 l hl)
  · intro l' hl' hno
    obtain ⟨l₀, hl₀, rfl⟩ := List.mem_map.mp hl'
    rcases List.mem_append.mp hl₀ with h | h
    · exact absurd (hf l₀).1.symm (hno l₀ h)
    · obtain ⟨-, hst, hca⟩ := hnews l₀ h
      rw [(hf l₀).2.1, (hf l₀).2.2, hst, hca]
      exact ⟨rfl, rfl⟩
  · intro l hl l' hl' hid
    obtain ⟨l₀, hl₀, rfl⟩ := List.mem_map.mp hl'
    rw [(hf l₀).1] at hid
    rcases List.mem_append.mp hl₀ with h | h
    · have heq : l = l₀ := row_id_inj hids hl h hid
      subst heq
      exact ⟨(hf l).2.1, (hf l).2.2⟩
    · exact absurd hid ((hnews l₀ h).1 l hl)

theorem markStep (db : List LotRow) (lotID : Int) (s : LotSummary)
    (hids : (db.map LotRow.id).Nodup) (hinv : LotInv db) :
    LotInv (markLotCompleted db lotID s).1 ∧
    NoReverse db (markLotCompleted db lotID s).1 ∧
    FreshProcessing db (markLotCompleted db lotID s).1 := by
  have hfid : ∀ l : LotRow,
      ((if markHits lotID l then markRow s l else l)).id = l.id := by
    intro l
    by_cases h : markHits lotID l = true
    · simp [h, markRow]
    · simp [h]
  simp only [markLotCompleted]
  refine ⟨?_, ?_, ?_⟩
  · intro l' hl'
    obtain ⟨l₀, hl₀, rfl⟩ := List.mem_map.mp hl'
    by_cases h : markHits lotID l₀ = true
    · simp [h, markRow]
    · simp only [h, Bool.false_eq_true, if_false]
      exact hinv l₀ hl₀
  · intro l' hl' l hl hid hc
    obtain ⟨l₀, hl₀, rfl⟩ := List.mem_map.mp hl'
    rw [hfid l₀] at hid
    have heq : l = l₀ := row_id_inj hids hl hl₀ hid
    subst heq
    have hh : markHits lotID l = false := by
      simp [markHits, hc]
    rw [if_neg (by simp [hh])]
    exact ⟨hc, rfl⟩
  · intro l' hl' hno
    obtain ⟨l₀, hl₀, rfl⟩ := List.mem_map.mp hl'
    exact absurd (hfid l₀).symm (hno l₀ hl₀)

theorem foldl_max_le_init (db : List LotRow) :
    ∀ init : Int, init ≤ db.foldl (fun m l => max m l.id) init := by
  induction db with
  | nil => intro init; exact le_refl init
  | cons l rest ih =>
    intro init
    exact le_trans (le_max_left init l.id) (ih (max init l.id))

theorem mem_le_foldl_max (db : List LotRow) :
    ∀ init : Int, ∀ l ∈ db, l.id ≤ db.foldl (fun m l => max m l.id) init := by
  induction db with
  | nil => intro _ l h; simp at h
  | cons a rest ih =>
    intro init l hl
    rcases List.mem_cons.mp hl with h | h
    · subst h
      exact le_trans (le_max_right init l.id) (foldl_max_le_init rest _)
    · exact ih _ l h

theorem freshId_fresh {db : List LotRow} {l : LotRow} (hl : l ∈ db) :
    l.id ≠ freshId db := by
  have := mem_le_foldl_max db 0 l hl
  unfold freshId
  omega

theorem createLot_shape (now : Int) (db : List LotRow) (input : CreateLotInput) :
    (createLot now db input).1 = db ∨
    ∃ mn, (createLot now db input).1
      = db ++ [newLotRow (freshId db) (trimSpace input.lotNumber) mn now] := by
  by_cases h1 : trimSpace input.lotNumber = ""
  · left; simp [createLot, h1]
  · by_cases h2 : db.any (fun l => l.lotNumber == trimSpace input.lotNumber)
    · left; simp [createLot, h1, h2]
    · right
      exact ⟨normalizeMachineName (trimSpace input.lotNumber) input.machineName,
        by simp [createLot, h1, h2]⟩

theorem productRowUpdate_preserves (now : Int) (input : ProductInput) (t : Int) :
    ∀ l : LotRow,
      ((if l.id == t then productRowUpdate now input l else l)).id = l.id ∧
      ((if l.id == t then productRowUpdate now input l else l)).status = l.status ∧
      ((if l.id == t then productRowUpdate now input l else l)).completedAt
        = l.completedAt := by
  intro l
  by_cases h : (l.id == t) = true
  · simp [h, productRowUpdate]
  · simp [h]

theorem upsert_shape (now : Int) (db : List LotRow) (input : ProductInput) :
    ∃ news f, (upsertLotProduct now db input).1 = (db ++ news).map f ∧
      (∀ l : LotRow, (f l).id = l.id ∧ (f l).status = l.status ∧
        (f l).completedAt = l.completedAt) ∧
      (∀ n ∈ news, (∀ l ∈ db, l.id ≠ n.id) ∧
        n.status = LotStatus.processing ∧ n.completedAt = none) := by
  by_cases h1 : trimSpace input.lotNumber = ""
  · exact ⟨[], id, by simp [upsertLotProduct, h1], fun l => ⟨rfl, rfl, rfl⟩, by simp⟩
  · cases hfind : db.find? (fun l => l.lotNumber == trimSpace input.lotNumber) with
    | some lot =>
      refine ⟨[], fun l => if l.id == lot.id then productRowUpdate now input l else l,
        ?_, productRowUpdate_preserves now input lot.id, by simp⟩
      simp [upsertLotProduct, h1, hfind]
    | none =>
      by_cases h2 : trimSpace (trimSpace input.lotNumber) = ""
      · refine ⟨[], id, ?_, fun l => ⟨rfl, rfl, rfl⟩, by simp⟩
        simp [upsertLotProduct, h1, hfind, createLot, h2]
      · by_cases h3 : db.any (fun l =>
          l.lotNumber == trimSpace (trimSpace input.lotNumber))
        · refine ⟨[], id, ?_, fun l => ⟨rfl, rfl, rfl⟩, by simp⟩
          simp [upsertLotProduct, h1, hfind, createLot, h2, h3]
        · have hnews : ∀ n ∈ [newLotRow (freshId db)
              (trimSpace (trimSpace input.lotNumber))
              (normalizeMachineName (trimSpace (trimSpace input.lotNumber))
                (normalizeMachineName (trimSpace input.lotNumber) input.machineName)) now],
              (∀ l ∈ db, l.id ≠ n.id) ∧
              n.status = LotStatus.processing ∧ n.completedAt = none := by
            intro n hn
            rw [List.mem_singleton.mp hn]
            exact ⟨fun l hl => freshId_fresh hl, rfl, rfl⟩
          cases hfind2 : (db ++ [newLotRow (freshId db)
              (trimSpace (trimSpace input.lotNumber))
              (normalizeMachineName (trimSpace (trimSpace input.lotNumber))
                (normalizeMachineName (trimSpace input.lotNumber) input.machineName))
              now]).find?
              (fun l => l.lotNumber == trimSpace input.lotNumber) with
          | some lot =>
            refine ⟨_, fun l => if l.id == lot.id then productRowUpdate now input l else l,
              ?_, productRowUpdate_preserves now input lot.id, hnews⟩
            simp [upsertLotProduct, h1, hfind, createLot, h2, h3, hfind2]
          | none =>
            refine ⟨_, id, ?_, fun l => ⟨rfl, rfl, rfl⟩, hnews⟩
            rw [List.map_id]
            simp [upsertLotProduct, h1, hfind, createLot, h2, h3, hfind2]

/-- C6: every repository write preserves the lot invariant (completedAt set
exactly for completed lots), a completed lot never reverts nor changes its
completion timestamp, every freshly inserted row starts processing with
completedAt unset, and every operation other than MarkLotCompleted leaves
status and completedAt of surviving rows unchanged. -/
theorem repo_ops_preserve_lot_invariant (op : RepoOp) (now : Int)
    (db : List LotRow) (hids : (db.map LotRow.id).Nodup) (hinv : LotInv db) :
    LotInv (applyRepoOp now db op) ∧
    NoReverse db (applyRepoOp now db op) ∧
    FreshProcessing db (applyRepoOp now db op) ∧
    ((∀ (lotID : Int) (s : LotSummary), op ≠ .markLotCompleted lotID s) →
      StatusFrozen db (applyRepoOp now db op)) := by
  cases op with
  | createLot input =>
    simp only [applyRepoOp]
    rcases createLot_shape now db input with h | ⟨mn, h⟩
    · rw [h]
      obtain ⟨a, b, c, d⟩ := subStep hids hinv (fun l hl => hl)
      exact ⟨a, b, c, fun _ => d⟩
    · rw [h]
      have hm := @masterStep db
        [newLotRow (freshId db) (trimSpace input.lotNumber) mn now]
        (db ++ [newLotRow (freshId db) (trimSpace input.lotNumber) mn now]) id
        (List.map_id _).symm (fun l => ⟨rfl, rfl, rfl⟩)
        (by
          intro n hn
          rw [List.mem_singleton.mp hn]
          exact ⟨fun l hl => freshId_fresh hl, rfl, rfl⟩)
        hids hinv
      exact ⟨hm.1, hm.2.1, hm.2.2.1, fun _ => hm.2.2.2⟩
  | markLotCompleted lotID s =>
    simp only [applyRepoOp]
    obtain ⟨a, b, c⟩ := markStep db lotID s hids hinv
    exact ⟨a, b, c, fun hne => absurd rfl (hne lotID s)⟩
  | upsertLotProduct input =>
    simp only [applyRepoOp]
    obtain ⟨news, f, hb, hf, hnews⟩ := upsert_shape now db input
    have hm := masterStep hb hf hnews hids hinv
    exact ⟨hm.1, hm.2.1, hm.2.2.1, fun _ => hm.2.2.2⟩
  | updateLotComputedFields tid opHour averagesJSON =>
    simp only [applyRepoOp]
    have hb : (updateLotComputedFields now db tid opHour averagesJSON).1
        = (db ++ []).map (fun l : LotRow =>
            if l.id == tid then computedRowUpdate now opHour averagesJSON l else l) := by
      simp [updateLotComputedFields]
    have hf : ∀ l : LotRow,
        ((if l.id == tid then computedRowUpdate now opHour averagesJSON l else l)).id = l.id ∧
        ((if l.id == tid then computedRowUpdate now opHour averagesJSON l else l)).status
          = l.status ∧
        ((if l.id == tid then computedRowUpdate now opHour averagesJSON l else l)).completedAt
          = l.completedAt := by
      intro l
      by_cases h : (l.id == tid) = true
      · simp [h, computedRowUpdate]
      · simp [h]
    have hm := masterStep hb hf (by simp) hids hinv
    exact ⟨hm.1, hm.2.1, hm.2.2.1, fun _ => hm.2.2.2⟩
  | deleteLotByNumber lotNumber =>
    simp only [applyRepoOp]
    by_cases h1 : trimSpace lotNumber = ""
    · rw [show (deleteLotByNumber db lotNumber).1 = db by simp [deleteLotByNumber, h1]]
      obtain ⟨a, b, c, d⟩ := subStep hids hinv (fun l hl => hl)
      exact ⟨a, b, c, fun _ => d⟩
    · have hdel : (deleteLotByNumber db lotNumber).1
          = db.filter (fun l => !(l.lotNumber == trimSpace lotNumber)) := by
        simp only [deleteLotByNumber, if_neg h1]
        split <;> rfl
      rw [hdel]
      obtain ⟨a, b, c, d⟩ := subStep hids hinv
        (fun l hl => (List.mem_filter.mp hl).1)
      exact ⟨a, b, c, fun _ => d⟩

/-- Witness for C6: inserting a fresh lot into a well-formed one-row table. -/
theorem repo_ops_preserve_lot_invariant_witness :
    LotInv (applyRepoOp 0 [exRow] (.createLot { lotNumber := "L-2", machineName := "B" })) ∧
    NoReverse [exRow] (applyRepoOp 0 [exRow]
      (.createLot { lotNumber := "L-2", machineName := "B" })) ∧
    FreshProcessing [exRow] (applyRepoOp 0 [exRow]
      (.createLot { lotNumber := "L-2", machineName := "B" })) ∧
    ((∀ (lotID : Int) (s : LotSummary),
        (RepoOp.createLot { lotNumber := "L-2", machineName := "B" })
          ≠ .markLotCompleted lotID s) →
      StatusFrozen [exRow] (applyRepoOp 0 [exRow]
        (.createLot { lotNumber := "L-2", machineName := "B" }))) :=
  repo_ops_preserve_lot_invariant (.createLot { lotNumber := "L-2", machineName := "B" })
    0 [exRow] (by simp) (by intro l hl; rw [List.mem_singleton.mp hl]; simp [exRow, newLotRow])

/-! ## Lemmas about the simulator -/

theorem clamp0_nonneg (v : ℚ) : 0 ≤ clamp0 v := by
  unfold clamp0
  split
  · exact le_refl 0
  · linarith

theorem nextValue_sensor_nonneg (rng : Rng) (s : SimSensor) :
    0 ≤ (nextValue rng s).2.1.currentValue := by
  simp only [nextValue]
  exact clamp0_nonneg _

theorem tickSensors_nonneg (m : String) :
    ∀ (l : List SimSensor) (rng : Rng), (∀ s ∈ l, 0 ≤ s.currentValue) →
      ∀ s ∈ (tickSensors m rng l).1, 0 ≤ s.currentValue := by
  intro l
  induction l with
  | nil => intro rng h s hs; simp [tickSensors] at hs
  | cons a rest ih =>
    intro rng h s hs
    by_cases hm : a.machineName = m
    · simp only [tickSensors, if_pos hm] at hs
      rcases List.mem_cons.mp hs with h1 | h1
      · subst h1; exact nextValue_sensor_nonneg _ _
      · exact ih _ (fun x hx => h x (List.mem_cons_of_mem _ hx)) s h1
    · simp only [tickSensors, if_neg hm] at hs
      rcases List.mem_cons.mp hs with h1 | h1
      · subst h1; exact h s (List.mem_cons_self _ _)
      · exact ih _ (fun x hx => h x (List.mem_cons_of_mem _ hx)) s h1

theorem sensorState_mem (s : SimSensor) :
    s.state = SensorState.startup ∨ s.state = SensorState.running ∨
    s.state = SensorState.shuttingDown ∨ s.state = SensorState.down := by
  cases hs : s.state <;> simp

/-- C4: after every tick, every sensor of the Simulator is in one of the
four operational states and its current value is non-negative; the final
per-tick clamp in nextValue makes the advanced values non-negative
regardless of the noise stream, and frozen sensors keep their non-negative
values. -/
theorem tick_sensor_invariant (st : SimState) (ts : Int)
    (h : ∀ s ∈ st.sensors, 0 ≤ s.currentValue) :
    ∀ s ∈ (tick st ts).sensors, 0 ≤ s.currentValue ∧
      (s.state = SensorState.startup ∨ s.state = SensorState.running ∨
       s.state = SensorState.shuttingDown ∨ s.state = SensorState.down) := by
  intro s hs
  refine ⟨?_, sensorState_mem s⟩
  by_cases hg : (!st.enabled || st.machineOrder.isEmpty) = true
  · unfold tick at hs
    rw [if_pos hg] at hs
    exact h s hs
  · unfold tick at hs
    rw [if_neg hg] at hs
    simp only at hs
    exact tickSensors_nonneg _ _ _ h s hs

/-- Witness for C4 at a concrete three-machine simulator state. -/
theorem tick_sensor_invariant_witness :
    (∀ s ∈ exDisabled.sensors, 0 ≤ s.currentValue) ∧
    (∀ s ∈ (tick exDisabled 0).sensors, 0 ≤ s.currentValue ∧
      (s.state = SensorState.startup ∨ s.state = SensorState.running ∨
       s.state = SensorState.shuttingDown ∨ s.state = SensorState.down)) := by
  have hyp : ∀ s ∈ exDisabled.sensors, 0 ≤ s.currentValue := by
    intro s hs
    simp only [exDisabled, List.mem_cons, List.not_mem_nil, or_false] at hs
    rcases hs with h | h | h <;> (subst h; simp [exSensor])
  exact ⟨hyp, tick_sensor_invariant exDisabled 0 hyp⟩

theorem enterState_state (rng : Rng) (s : SimSensor) (ns : SensorState) :
    (enterState rng s ns).1.state = ns := by
  cases ns <;> simp only [enterState] <;> (first | rfl | (split <;> rfl))

theorem initSensorsLoop_startup :
    ∀ (l : List SimSensor) (rng : Rng),
      ∀ s ∈ (initSensorsLoop rng l).1, s.state = SensorState.startup := by
  intro l
  induction l with
  | nil => intro rng s hs; simp [initSensorsLoop] at hs
  | cons a rest ih =>
    intro rng s hs
    simp only [initSensorsLoop] at hs
    rcases List.mem_cons.mp hs with h1 | h1
    · subst h1; exact enterState_state _ _ _
    · exact ih _ s h1

/-- C5 counterexample: invoking Enable on an already-enabled simulator that
sits mid-rotation is a no-op, so afterwards the rotation index is still one
and the sensor is still Running, contradicting the claim for this
invocation. -/
theorem enable_midCycle_counterexample :
    exMidCycle.enabled = true ∧
    (enable exMidCycle).machineIndex = 1 ∧
    ((enable exMidCycle).sensors.map (fun s => s.state)) = [SensorState.running] :=
  ⟨rfl, rfl, rfl⟩

/-- C5 (amended): whenever Enable is invoked on a disabled Simulator,
afterwards every sensor is in Startup and the rotation index and the
per-machine tick counter are zero; on an already-enabled simulator Enable
is a no-op. -/
theorem enable_resets_when_disabled (st : SimState) (h : st.enabled = false) :
    (enable st).enabled = true ∧ (enable st).machineIndex = 0 ∧
    (enable st).machineIteration = 0 ∧
    ∀ s ∈ (enable st).sensors, s.state = SensorState.startup := by
  unfold enable
  rw [if_neg (by simp [h])]
  refine ⟨rfl, rfl, rfl, ?_⟩
  intro s hs
  simp only [initSensors] at hs
  exact initSensorsLoop_startup _ _ s hs

/-- Witness for C5: re-enabling the concrete disabled simulator. -/
theorem enable_resets_when_disabled_witness :
    exDisabled.enabled = false ∧
    ((enable exDisabled).enabled = true ∧ (enable exDisabled).machineIndex = 0 ∧
     (enable exDisabled).machineIteration = 0 ∧
     ∀ s ∈ (enable exDisabled).sensors, s.state = SensorState.startup) :=
  ⟨rfl, enable_resets_when_disabled exDisabled rfl⟩

theorem enable_enabled (st : SimState) : (enable st).enabled = true := by
  unfold enable
  split
  · assumption
  · rfl

theorem disable_disabled (st : SimState) : (disable st).enabled = false := by
  unfold disable
  split
  · next h => simpa using h
  · rfl

/-- C7: after one successful Coordinator sync, the simulator is enabled
exactly when the repository reports active (processing) lots. -/
theorem syncSimulation_tracks_hasActiveLots (db : List LotRow) (st : SimState) :
    (syncSimulation db st).enabled = hasActiveLots db := by
  unfold syncSimulation
  by_cases h : hasActiveLots db = true
  · rw [if_pos h, enable_enabled, h]
  · have h' : hasActiveLots db = false := by
      revert h; cases hasActiveLots db <;> simp
    rw [if_neg (by simp [h']), disable_disabled, h']

theorem tick_preserved (st : SimState) (ts : Int) :
    (tick st ts).enabled = st.enabled ∧
    (tick st ts).machineOrder = st.machineOrder ∧
    (tick st ts).machineIterations = st.machineIterations := by
  unfold tick
  split
  · exact ⟨rfl, rfl, rfl⟩
  · exact ⟨rfl, rfl, rfl⟩

theorem tick_counters (st : SimState) (ts : Int) (hen : st.enabled = true)
    (hord : st.machineOrder ≠ []) :
    (tick st ts).machineIteration
      = (if st.machineIterations ≤ st.machineIteration + 1 then 0
         else st.machineIteration + 1) ∧
    (tick st ts).machineIndex
      = (if st.machineIterations ≤ st.machineIteration + 1 then
           (st.machineIndex + 1) % st.machineOrder.length
         else st.machineIndex) ∧
    (tick st ts).events
      = (if (st.machineIterations ≤ st.machineIteration + 1) ∧
            (st.machineIndex + 1) % st.machineOrder.length = 0 then
           st.events ++ [(ts, st.machineOrder.getD st.machineIndex "")]
         else st.events) := by
  have hg : ¬((!st.enabled || st.machineOrder.isEmpty) = true) := by
    simp [hen, List.isEmpty_iff, hord]
  unfold tick
  rw [if_neg hg]
  refine ⟨rfl, rfl, ?_⟩
  by_cases hw : st.machineIterations ≤ st.machineIteration + 1
  · simp [hw]
  · simp [hw]

/-- C2: with iterationsPerMachine two and three machines, starting at the
top of a rotation, after exactly six enabled ticks the rotation is back at
machine index zero with a reset per-machine counter, and exactly one
cycle-complete notification has fired, carrying the third machine in
first-seen order (the machine just vacated). -/
theorem rotation_after_six_ticks (st : SimState)
    (hen : st.enabled = true) (hlen : st.machineOrder.length = 3)
    (hits : st.machineIterations = 2) (hidx : st.machineIndex = 0)
    (hit : st.machineIteration = 0) (hev : st.events = []) :
    (tickN 6 st).machineIndex = 0 ∧ (tickN 6 st).machineIteration = 0 ∧
    (tickN 6 st).events.length = 1 ∧
    (tickN 6 st).events.map Prod.snd = [st.machineOrder.getD 2 ""] := by
  have hord : st.machineOrder ≠ [] := by
    intro h; rw [h] at hlen; simp at hlen
  -- tick 1
  obtain ⟨a1, b1, c1⟩ := tick_counters st 0 hen hord
  obtain ⟨p1, q1, r1⟩ := tick_preserved st 0
  have e1 : (tick st 0).enabled = true := by rw [p1, hen]
  have o1 : (tick st 0).machineOrder = st.machineOrder := q1
  have o1' : (tick st 0).machineOrder ≠ [] := by rw [o1]; exact hord
  have m1 : (tick st 0).machineIterations = 2 := by rw [r1, hits]
  have i1 : (tick st 0).machineIteration = 1 := by
    rw [a1, hit, hits]; norm_num
  have x1 : (tick st 0).machineIndex = 0 := by
    rw [b1, hit, hits, hidx]; norm_num
  have v1 : (tick st 0).events = [] := by
    rw [c1, hit, hits, hev]
    rw [if_neg (by omega)]
  -- tick 2
  obtain ⟨a2, b2, c2⟩ := tick_counters (tick st 0) 1 e1 o1'
  obtain ⟨p2, q2, r2⟩ := tick_preserved (tick st 0) 1
  have e2 : (tick (tick st 0) 1).enabled = true := by rw [p2, e1]
  have o2 : (tick (tick st 0) 1).machineOrder = st.machineOrder := by rw [q2, o1]
  have o2' : (tick (tick st 0) 1).machineOrder ≠ [] := by rw [o2]; exact hord
  have m2 : (tick (tick st 0) 1).machineIterations = 2 := by rw [r2, m1]
  have i2 : (tick (tick st 0) 1).machineIteration = 0 := by
    rw [a2, i1, m1]; norm_num
  have x2 : (tick (tick st 0) 1).machineIndex = 1 := by
    rw [b2, i1, m1, x1, o1, hlen]
    norm_num
  have v2 : (tick (tick st 0) 1).events = [] := by
    rw [c2, i1, m1, x1, o1, hlen, v1]
    rw [if_neg (by omega)]
  -- tick 3
  obtain ⟨a3, b3, c3⟩ := tick_counters (tick (tick st 0) 1) 2 e2 o2'
  obtain ⟨p3, q3, r3⟩ := tick_preserved (tick (tick st 0) 1) 2
  have e3 : (tick (tick (tick st 0) 1) 2).enabled = true := by rw [p3, e2]
  have o3 : (tick (tick (tick st 0) 1) 2).machineOrder = st.machineOrder := by rw [q3, o2]
  have o3' : (tick (tick (tick st 0) 1) 2).machineOrder ≠ [] := by rw [o3]; exact hord
  have m3 : (tick (tick (tick st 0) 1) 2).machineIterations = 2 := by rw [r3, m2]
  have i3 : (tick (tick (tick st 0) 1) 2).machineIteration = 1 := by
    rw [a3, i2, m2]; norm_num
  have x3 : (tick (tick (tick st 0) 1) 2).machineIndex = 1 := by
    rw [b3, i2, m2, x2]
    rw [if_neg (by omega)]
  have v3 : (tick (tick (tick st 0) 1) 2).events = [] := by
    rw [c3, i2, m2, v2]
    rw [if_neg (by omega)]
  -- tick 4
  obtain ⟨a4, b4, c4⟩ := tick_counters (tick (tick (tick st 0) 1) 2) 3 e3 o3'
  obtain ⟨p4, q4, r4⟩ := tick_preserved (tick (tick (tick st 0) 1) 2) 3
  have e4 : (tick (tick (tick (tick st 0) 1) 2) 3).enabled = true := by rw [p4, e3]
  have o4 : (tick (tick (tick (tick st 0) 1) 2) 3).machineOrder = st.machineOrder := by
    rw [q4, o3]
  have o4' : (tick (tick (tick (tick st 0) 1) 2) 3).machineOrder ≠ [] := by
    rw [o4]; exact hord
  have m4 : (tick (tick (tick (tick st 0) 1) 2) 3).machineIterations = 2 := by rw [r4, m3]
  have i4 : (tick (tick (tick (tick st 0) 1) 2) 3).machineIteration = 0 := by
    rw [a4, i3, m3]; norm_num
  have x4 : (tick (tick (tick (tick st 0) 1) 2) 3).machineIndex = 2 := by
    rw [b4, i3, m3, x3, o3, hlen]
    norm_num
  have v4 : (tick (tick (tick (tick st 0) 1) 2) 3).events = [] := by
    rw [c4, i3, m3, x3, o3, hlen, v3]
    rw [if_neg (by omega)]
  -- tick 5
  obtain ⟨a5, b5, c5⟩ := tick_counters (tick (tick (tick (tick st 0) 1) 2) 3) 4 e4 o4'
  obtain ⟨p5, q5, r5⟩ := tick_preserved (tick (tick (tick (tick st 0) 1) 2) 3) 4
  have e5 : (tick (tick (tick (tick (tick st 0) 1) 2) 3) 4).enabled = true := by rw [p5, e4]
  have o5 : (tick (tick (tick (tick (tick st 0) 1) 2) 3) 4).machineOrder
      = st.machineOrder := by rw [q5, o4]
  have o5' : (tick (tick (tick (tick (tick st 0) 1) 2) 3) 4).machineOrder ≠ [] := by
    rw [o5]; exact hord
  have m5 : (tick (tick (tick (tick (tick st 0) 1) 2) 3) 4).machineIterations = 2 := by
    rw [r5, m4]
  have i5 : (tick (tick (tick (tick (tick st 0) 1) 2) 3) 4).machineIteration = 1 := by
    rw [a5, i4, m4]; norm_num
  have x5 : (tick (tick (tick (tick (tick st 0) 1) 2) 3) 4).machineIndex = 2 := by
    rw [b5, i4, m4, x4]
    rw [if_neg (by omega)]
  have v5 : (tick (tick (tick (tick (tick st 0) 1) 2) 3) 4).events = [] := by
    rw [c5, i4, m4, v4]
    rw [if_neg (by omega)]
  -- tick 6
  obtain ⟨a6, b6, c6⟩ :=
    tick_counters (tick (tick (tick (tick (tick st 0) 1) 2) 3) 4) 5 e5 o5'
  have i6 : (tick (tick (tick (tick (tick (tick st 0) 1) 2) 3) 4) 5).machineIteration
      = 0 := by
    rw [a6, i5, m5]; norm_num
  have x6 : (tick (tick (tick (tick (tick (tick st 0) 1) 2) 3) 4) 5).machineIndex
      = 0 := by
    rw [b6, i5, m5, x5, o5, hlen]
    norm_num
  have v6 : (tick (tick (tick (tick (tick (tick st 0) 1) 2) 3) 4) 5).events
      = [((5 : Int), st.machineOrder.getD 2 "")] := by
    rw [c6, i5, m5, x5, o5, hlen, v5]
    rw [if_pos (by omega)]
    simp
  have hsteps : tickN 6 st = tick (tick (tick (tick (tick (tick st 0) 1) 2) 3) 4) 5 := by
    simp only [tickN]
    norm_num
  rw [hsteps, x6, i6, v6]
  exact ⟨rfl, rfl, rfl, rfl⟩

/-- Witness for C2: the concrete three-machine simulator, freshly enabled. -/
theorem rotation_after_six_ticks_witness :
    (tickN 6 (enable exDisabled)).machineIndex = 0 ∧
    (tickN 6 (enable exDisabled)).machineIteration = 0 ∧
    (tickN 6 (enable exDisabled)).events.length = 1 ∧
    (tickN 6 (enable exDisabled)).events.map Prod.snd
      = [(enable exDisabled).machineOrder.getD 2 ""] :=
  rotation_after_six_ticks (enable exDisabled) rfl rfl rfl rfl rfl rfl

/-- C9: in the event trace of one tick, the exclusive lock brackets only
in-memory sensor updates and is released before every time-series write and
every listener invocation; listener invocations form a suffix that follows
the release of the read lock under which the listener list was copied. -/
theorem tick_lock_scope (st : SimState) :
    ∃ pre post, tickEvents st = pre ++ Ev.lockRel :: post ∧
      (∀ e ∈ pre, e = Ev.lockAcq ∨ e = Ev.memUpdate) ∧
      ∃ writes notif, post = writes ++ notif ∧
        (∀ e ∈ writes, e = Ev.ioWrite) ∧
        (notif = [] ∨
          ∃ m, notif = Ev.rlockAcq :: Ev.rlockRel :: List.replicate m Ev.invoke) := by
  by_cases hg : (!st.enabled || st.machineOrder.isEmpty) = true
  · refine ⟨[Ev.lockAcq], [], ?_, by simp, [], [], rfl, by simp, Or.inl rfl⟩
    simp [tickEvents, hg]
  · have htr : tickEvents st
        = [Ev.lockAcq]
          ++ ((tickSensors (st.machineOrder.getD st.machineIndex "")
                st.rng st.sensors).2.1).map (fun _ => Ev.memUpdate)
          ++ [Ev.lockRel]
          ++ ((tickSensors (st.machineOrder.getD st.machineIndex "")
                st.rng st.sensors).2.1).map (fun _ => Ev.ioWrite)
          ++ (if (st.machineIterations ≤ st.machineIteration + 1) ∧
                 (if st.machineIterations ≤ st.machineIteration + 1 then
                    (st.machineIndex + 1) % st.machineOrder.length
                  else st.machineIndex) = 0 then
                [Ev.rlockAcq, Ev.rlockRel] ++ List.replicate st.listeners Ev.invoke
              else []) := by
      unfold tickEvents
      rw [if_neg hg]
    have hpre : ∀ e ∈ Ev.lockAcq :: ((tickSensors (st.machineOrder.getD st.machineIndex "")
        st.rng st.sensors).2.1).map (fun _ => Ev.memUpdate),
        e = Ev.lockAcq ∨ e = Ev.memUpdate := by
      intro e he
      rcases List.mem_cons.mp he with h | h
      · exact Or.inl h
      · obtain ⟨r, -, hr⟩ := List.mem_map.mp h
        exact Or.inr hr.symm
    have hwr : ∀ e ∈ ((tickSensors (st.machineOrder.getD st.machineIndex "")
        st.rng st.sensors).2.1).map (fun _ => Ev.ioWrite), e = Ev.ioWrite := by
      intro e he
      obtain ⟨r, -, hr⟩ := List.mem_map.mp he
      exact hr.symm
    by_cases hc : (st.machineIterations ≤ st.machineIteration + 1) ∧
        (if st.machineIterations ≤ st.machineIteration + 1 then
          (st.machineIndex + 1) % st.machineOrder.length
         else st.machineIndex) = 0
    · rw [if_pos hc] at htr
      refine ⟨Ev.lockAcq :: ((tickSensors (st.machineOrder.getD st.machineIndex "")
          st.rng st.sensors).2.1).map (fun _ => Ev.memUpdate),
        ((tickSensors (st.machineOrder.getD st.machineIndex "")
          st.rng st.sensors).2.1).map (fun _ => Ev.ioWrite)
          ++ (Ev.rlockAcq :: Ev.rlockRel :: List.replicate st.listeners Ev.invoke),
        ?_, hpre,
        ((tickSensors (st.machineOrder.getD st.machineIndex "")
          st.rng st.sensors).2.1).map (fun _ => Ev.ioWrite),
        Ev.rlockAcq :: Ev.rlockRel :: List.replicate st.listeners Ev.invoke,
        rfl, hwr, Or.inr ⟨st.listeners, rfl⟩⟩
      rw [htr]
      simp [List.append_assoc]
    · rw [if_neg hc] at htr
      refine ⟨Ev.lockAcq :: ((tickSensors (st.machineOrder.getD st.machineIndex "")
          st.rng st.sensors).2.1).map (fun _ => Ev.memUpdate),
        ((tickSensors (st.machineOrder.getD st.machineIndex "")
          st.rng st.sensors).2.1).map (fun _ => Ev.ioWrite) ++ [],
        ?_, hpre,
        ((tickSensors (st.machineOrder.getD st.machineIndex "")
          st.rng st.sensors).2.1).map (fun _ => Ev.ioWrite),
        [], rfl, hwr, Or.inl rfl⟩
      rw [htr]
      simp [List.append_assoc]

/-! ## Configuration parsing theorems -/

/-- C8: configuration parsing is total and never fails: the tick-interval
parser returns the parsed duration when it is valid and positive and the
documented default otherwise (empty, unparsable or non-positive input), and
the iterations-per-machine parser does the same for integer input. -/
theorem config_parsing_total_with_fallback (raw : String) :
    (∀ d, parseDuration raw = some d → 0 < d → intervalFromString raw = d) ∧
    ((raw = "" ∨ parseDuration raw = none ∨
        (∃ d, parseDuration raw = some d ∧ d ≤ 0)) →
      intervalFromString raw = defaultIntervalNs) ∧
    (∀ n, atoi raw = some n → 0 < n → machineIterationsFromEnv raw = n) ∧
    ((raw = "" ∨ atoi raw = none ∨ (∃ n, atoi raw = some n ∧ n ≤ 0)) →
      machineIterationsFromEnv raw = defaultMachineIters) := by
  refine ⟨?_, ?_, ?_, ?_⟩
  · intro d hd hpos
    unfold intervalFromString
    by_cases h : raw = ""
    · subst h; simp [parseDuration] at hd
    · rw [if_neg h, hd]
      show (if d ≤ 0 then defaultIntervalNs else d) = d
      rw [if_neg (by omega)]
  · rintro (h | h | ⟨d, hd, hle⟩)
    · simp [intervalFromString, h]
    · unfold intervalFromString
      by_cases he : raw = ""
      · simp [he]
      · rw [if_neg he, h]
    · unfold intervalFromString
      by_cases he : raw = ""
      · simp [he]
      · rw [if_neg he, hd]
        show (if d ≤ 0 then defaultIntervalNs else d) = defaultIntervalNs
        rw [if_pos hle]
  · intro n hn hpos
    unfold machineIterationsFromEnv
    by_cases h : raw = ""
    · subst h; simp [atoi] at hn
    · rw [if_neg h, hn]
      show (if n ≤ 0 then defaultMachineIters else n) = n
      rw [if_neg (by omega)]
  · rintro (h | h | ⟨n, hn, hle⟩)
    · simp [machineIterationsFromEnv, h]
    · unfold machineIterationsFromEnv
      by_cases he : raw = ""
      · simp [he]
      · rw [if_neg he, h]
    · unfold machineIterationsFromEnv
      by_cases he : raw = ""
      · simp [he]
      · rw [if_neg he, hn]
        show (if n ≤ 0 then defaultMachineIters else n) = defaultMachineIters
        rw [if_pos hle]

/-- Witness for C8: a valid positive duration together with a string the
integer parser rejects, and a negative count falling back. -/
theorem config_parsing_total_with_fallback_witness :
    parseDuration "2s" = some 2000000000 ∧
    intervalFromString "2s" = 2000000000 ∧
    machineIterationsFromEnv "2s" = defaultMachineIters ∧
    machineIterationsFromEnv "-3" = defaultMachineIters :=
  ⟨by decide,
   (config_parsing_total_with_fallback "2s").1 2000000000 (by decide) (by decide),
   (config_parsing_total_with_fallback "2s").2.2.2 (Or.inr (Or.inl (by decide))),
   (config_parsing_total_with_fallback "-3").2.2.2
     (Or.inr (Or.inr ⟨-3, by decide, by decide⟩))⟩

end Minerva
